import Mathlib

/-!
Verification of the metadata-driven dynamic query engine of the freshshop
backend.  The definitions below are a shallow embedding of:

* `AdvancedMetadataService` (src/common/metadata/advanced-metadata.service.ts):
  schema metadata extraction, query-capability derivation, dotted-path
  resolution;
* `ReflectionService` (src/common/reflection/reflection.service.ts):
  the error-catching façade over the metadata service;
* `AdvancedQueryBuilderService` (src/common/query-builder/
  advanced-query-builder.service.ts): filter/search/sort/having compilation
  onto a TypeORM `SelectQueryBuilder`, join management and paginated
  execution;
* `DynamicQueryBuilderService.mapDynamicToAdvancedOptions`
  (src/common/query-builder/dynamic-query-builder.service.ts).

The TypeORM `SelectQueryBuilder` is modelled by the record `QB`, which
accumulates exactly the calls the services make on it (`leftJoin`,
`andWhere`, `having`, `addOrderBy`, `addGroupBy`, `select`, `distinct`,
`cache`, `setLock`, `skip`, `take`).  The `warnings` field records every
`logger.warn` message the services emit, so that "reported" versus
"silently dropped" behaviour is observable.  JS `undefined` is modelled by
`Option`; truthiness tests of numbers/strings are modelled explicitly.
-/

namespace FreshShop

/-- A JS value that may be `undefined` (`none`). -/
abbrev JVal := Option String

/-- JS template-literal interpolation: `undefined` prints as "undefined". -/
def jstr (v : JVal) : String := v.getD "undefined"

/-- Whether the second character list occurs at the start of the first. -/
def listStartsWith : List Char → List Char → Bool
  | _, [] => true
  | [], _ :: _ => false
  | a :: as, b :: bs => a == b && listStartsWith as bs

/-- Whether the second character list occurs anywhere inside the first. -/
def listHasSub : List Char → List Char → Bool
  | [], pat => pat.isEmpty
  | l@(_ :: rest), pat => listStartsWith l pat || listHasSub rest pat

/-- JS `String.prototype.includes`. -/
def strIncludes (s pat : String) : Bool := listHasSub s.toList pat.toList

/-- Split a character list on a separator character (kept structural so
that proofs can evaluate it). -/
def splitCharAux (sep : Char) : List Char → List Char → List String
  | [], acc => [String.mk acc.reverse]
  | c :: rest, acc =>
    if c == sep then String.mk acc.reverse :: splitCharAux sep rest []
    else splitCharAux sep rest (c :: acc)

/-- JS `s.split('.')` (empty string yields `[""]`, as in JS). -/
def jsSplitDot (s : String) : List String := splitCharAux '.' s.toList []

/-- JS `path.split('.').filter(Boolean)`. -/
def splitDots (path : String) : List String :=
  (jsSplitDot path).filter (fun s => s != "")

/-- JS `Array.prototype.join(sep)`. -/
def joinSep (sep : String) : List String → String
  | [] => ""
  | [x] => x
  | x :: xs => x ++ sep ++ joinSep sep xs

/-- JS `s.includes(c)` for a single character. -/
def strHasChar (s : String) (c : Char) : Bool := s.toList.contains c

/-- JS `s.toLowerCase()` (structural implementation). -/
def lowerStr (s : String) : String := String.mk (s.toList.map Char.toLower)

/-- One step of `name.replace(/([a-z0-9])([A-Z])/g, '$1_$2')`. -/
def underscoreCamel : List Char → List Char
  | a :: b :: rest =>
    if (a.isLower || a.isDigit) && b.isUpper then
      a :: '_' :: underscoreCamel (b :: rest)
    else
      a :: underscoreCamel (b :: rest)
  | l => l

/-- JS `replace(/\s+/g, '_')`: each maximal whitespace run becomes one `_`.
The flag records whether the previous character was whitespace. -/
def squashWs : List Char → Bool → List Char
  | [], _ => []
  | c :: rest, prevWs =>
    if c.isWhitespace then
      (if prevWs then [] else ['_']) ++ squashWs rest true
    else
      c :: squashWs rest false

namespace AdvancedMetadataService

/-- Column descriptor as extracted by `extractEntityMetadata`. -/
structure IColumnMetadata where
  name : String
  ctype : String
  isNullable : Bool := false
  isPrimary : Bool := false
  isUnique : Bool := false
  dbName : Option String := none
deriving DecidableEq

/-- Relation descriptor as extracted by `extractEntityMetadata`;
`target` is only the target type's NAME (best-effort, never resolved). -/
structure IRelationMetadata where
  name : String
  rtype : String := "many-to-one"
  target : String := "unknown"
deriving DecidableEq

/-- Entity descriptor as extracted by `extractEntityMetadata`. -/
structure IEntityMetadata where
  name : String
  tableName : String := ""
  columns : List IColumnMetadata := []
  relations : List IRelationMetadata := []
deriving DecidableEq

/-- The schema environment: what TypeORM reflection knows, keyed by the
entity class name.  `none` models an entity type with no TypeORM metadata,
for which `extractEntityMetadata` throws. -/
def Env := String → Option IEntityMetadata

/-- `getEntityMetadata`: cache lookup plus extraction; throws (models the
`throw new Error(...)`) when the entity has no TypeORM metadata. -/
def getEntityMetadata (env : Env) (entity : String) :
    Except String IEntityMetadata :=
  match env entity with
  | some m => .ok m
  | none =>
    .error ("Metadata extraction failed for " ++ entity ++
      ": No TypeORM metadata found for " ++ entity)

/-- Query capabilities derived from entity metadata. -/
structure IQueryCapabilities where
  searchable : List String
  filterable : List String
  sortable : List String
  relations : List String
  defaultSortField : String := "createdAt"
  defaultSortDirection : String := "DESC"
  defaultLimit : Nat := 20
  maxLimit : Nat := 100
deriving DecidableEq

/-- Text-like column types accepted by `isSearchableType`. -/
def searchableTypes : List String :=
  ["varchar", "text", "char", "string", "nvarchar", "ntext",
   "character varying"]

/-- `isSearchableType`: the lower-cased column type contains one of the
text-like type names. -/
def isSearchableType (t : String) : Bool :=
  searchableTypes.any (fun s => strIncludes (lowerStr t) s)

/-- Comparable column types accepted by `isSortableType`. -/
def sortableTypes : List String :=
  ["varchar", "text", "char", "string", "int", "integer", "bigint",
   "smallint", "decimal", "numeric", "float", "double", "date",
   "datetime", "timestamp", "time", "boolean", "bool"]

/-- `isSortableType`: the lower-cased column type contains one of the
comparable type names. -/
def isSortableType (t : String) : Bool :=
  sortableTypes.any (fun s => strIncludes (lowerStr t) s)

/-- `buildQueryCapabilities`: all columns are filterable, text-like
columns searchable, comparable columns sortable; relation names collected;
fixed defaults. -/
def buildQueryCapabilities (m : IEntityMetadata) : IQueryCapabilities :=
  { searchable := (m.columns.filter (fun c => isSearchableType c.ctype)).map
      (fun c => c.name)
    filterable := m.columns.map (fun c => c.name)
    sortable := (m.columns.filter (fun c => isSortableType c.ctype)).map
      (fun c => c.name)
    relations := m.relations.map (fun r => r.name) }

/-- `getQueryCapabilities` (cached in the source; the cache is transparent
because derivation is deterministic). -/
def getQueryCapabilities (env : Env) (entity : String) :
    Except String IQueryCapabilities :=
  (getEntityMetadata env entity).map buildQueryCapabilities

/-- `toSnakeCase`: camel-case boundaries become `_`, whitespace runs become
`_`, then everything is lower-cased. -/
def toSnakeCase (name : String) : String :=
  String.mk (((squashWs (underscoreCamel name.toList) false)).map Char.toLower)

/-- `normalizeType`. -/
def normalizeType (t : String) : String :=
  let s := lowerStr t
  if strIncludes s "character varying" then "varchar"
  else if strIncludes s "timestamp" then "timestamp"
  else if strIncludes s "datetime" then "datetime"
  else if strIncludes s "decimal" || strIncludes s "numeric" then "decimal"
  else if strIncludes s "int" then "int"
  else if s == "bool" then "boolean"
  else s

/-- Lookup in the relations map built by `getRelationsMap` (a JS object
built by assignment, so a later duplicate name overwrites an earlier one). -/
def relLookup (m : IEntityMetadata) (name : String) :
    Option IRelationMetadata :=
  m.relations.reverse.find? (fun r => r.name == name)

/-- Lookup in the field-column map built by `getFieldColumnMap` (same
last-assignment-wins convention). -/
def colLookup (m : IEntityMetadata) (name : String) :
    Option IColumnMetadata :=
  m.columns.reverse.find? (fun c => c.name == name)

/-- Result of `resolvePath`. -/
structure ResolvedPath where
  valid : Bool
  relationChain : List String
  finalField : Option String := none
  errors : Option (List String) := none
deriving DecidableEq

/-- The segment walk of `AdvancedMetadataService.resolvePath`.  NOTE: the
source never reassigns `current`, so EVERY segment is looked up against the
root entity's relation and column maps ("best-effort: we only keep target
name"). -/
def resolveLoop (m : IEntityMetadata) : List String → List String →
    ResolvedPath
  | chain, [] => { valid := true, relationChain := chain }
  | chain, part :: rest =>
    match relLookup m part with
    | some _ => resolveLoop m (chain ++ [part]) rest
    | none =>
      if (colLookup m part).isSome then
        if rest.isEmpty then
          { valid := true, relationChain := chain, finalField := some part }
        else
          { valid := false, relationChain := chain, finalField := some part,
            errors := some ["Field '" ++ part ++
              "' không phải quan hệ nên không thể đi sâu tiếp"] }
      else
        { valid := false, relationChain := chain,
          errors := some ["Không tìm thấy quan hệ/field '" ++ part ++
            "' trên " ++ m.name] }

/-- `AdvancedMetadataService.resolvePath`: splits the dotted path and walks
`resolveLoop`.  The metadata lookup (which can throw for an unknown entity)
happens inside the loop in the source; it is only reached when there is at
least one segment. -/
def resolvePath (env : Env) (entity : String) (path : String) :
    Except String ResolvedPath :=
  match splitDots path with
  | [] => .ok { valid := true, relationChain := [] }
  | parts =>
    match env entity with
    | some m => .ok (resolveLoop m [] parts)
    | none =>
      .error ("Metadata extraction failed for " ++ entity ++
        ": No TypeORM metadata found for " ++ entity)

end AdvancedMetadataService

namespace ReflectionService

open AdvancedMetadataService

/-- `ReflectionService.validateField`: capability membership for the given
operation; the `try/catch` turns any metadata-extraction error into
`false`. -/
def validateField (env : Env) (entity field operation : String) : Bool :=
  match getQueryCapabilities env entity with
  | .error _ => false
  | .ok caps =>
    if operation == "search" then caps.searchable.contains field
    else if operation == "filter" then caps.filterable.contains field
    else if operation == "sort" then caps.sortable.contains field
    else false

/-- `ReflectionService.resolvePath`: the `try/catch` turns any
metadata-extraction error into an invalid result. -/
def resolvePath (env : Env) (entity path : String) : ResolvedPath :=
  match AdvancedMetadataService.resolvePath env entity path with
  | .ok r => r
  | .error _ =>
    { valid := false, relationChain := [], errors := some ["resolvePath error"] }

end ReflectionService

/-- A value bound to a query parameter: a single (possibly undefined) value
or an array of values. -/
inductive BoundVal
  | one : JVal → BoundVal
  | many : List JVal → BoundVal
deriving DecidableEq

/-- The named parameters attached to one `andWhere`/`having` call. -/
abbrev Params := List (String × BoundVal)

/-- Shallow model of a TypeORM `SelectQueryBuilder`, recording exactly the
calls the services make on it.  `wheres` entries are implicitly AND-ed
(`andWhere`); `warnings` records every `logger.warn` the services emit. -/
structure QB where
  selectClause : Option String := none
  joins : List (String × String × Bool) := []
  wheres : List (String × Params) := []
  havings : List (String × Params) := []
  orderBys : List (String × String) := []
  groupBys : List String := []
  isDistinct : Bool := false
  cacheSeconds : Option (Option Int) := none
  lockMode : Option String := none
  skipCount : Option Int := none
  takeCount : Option Int := none
  warnings : List String := []
deriving DecidableEq

/-- `queryBuilder.andWhere(cond, params)`. -/
def QB.andWhere (qb : QB) (cond : String) (ps : Params) : QB :=
  { qb with wheres := qb.wheres ++ [(cond, ps)] }

/-- `queryBuilder.having(cond, params)`. -/
def QB.addHaving (qb : QB) (cond : String) (ps : Params) : QB :=
  { qb with havings := qb.havings ++ [(cond, ps)] }

/-- `logger.warn(msg)` while building this query. -/
def QB.warn (qb : QB) (msg : String) : QB :=
  { qb with warnings := qb.warnings ++ [msg] }

/-- `PaginationOptions`. -/
structure PaginationOptions where
  page : Option Int := none
  limit : Option Int := none
  offset : Option Int := none
deriving DecidableEq

/-- `SortOptions`. -/
structure SortOptions where
  field : String
  direction : String
deriving DecidableEq

/-- `FilterOptions`; `operator` is a string in the source union type, and
the `switch` has a default branch for unsupported names. -/
structure FilterOptions where
  field : String
  operator : String
  value : JVal := none
  values : Option (List String) := none
deriving DecidableEq

/-- `SearchOptions`. -/
structure SearchOptions where
  query : String
  fields : Option (List String) := none
  mode : Option String := none
  caseSensitive : Option Bool := none
deriving DecidableEq

/-- `RelationOptions`. -/
structure RelationOptions where
  relations : Option (List String) := none
  maxDepth : Option Nat := none
  eager : Option Bool := none
deriving DecidableEq

/-- `SelectOptions`. -/
structure SelectOptions where
  fields : Option (List String) := none
  exclude : Option (List String) := none
deriving DecidableEq

/-- `cache?: boolean | number`. -/
inductive CacheOpt
  | num : Int → CacheOpt
  | flag : Bool → CacheOpt
deriving DecidableEq

/-- `AdvancedQueryOptions` (extends `QueryBuilderOptions`). -/
structure AdvancedQueryOptions where
  pagination : Option PaginationOptions := none
  sort : Option (List SortOptions) := none
  filters : Option (List FilterOptions) := none
  search : Option SearchOptions := none
  relations : Option RelationOptions := none
  select : Option SelectOptions := none
  groupBy : Option (List String) := none
  having : Option (List FilterOptions) := none
  distinct : Option Bool := none
  cache : Option CacheOpt := none
  lock : Option String := none
deriving DecidableEq

namespace AdvancedQueryBuilderService

open AdvancedMetadataService

/-- The walk of `ensureJoinsForPath`: for each part, alias is the previous
built path plus `_` plus the part (or the part itself at the start), and a
`leftJoin`/`leftJoinAndSelect` is appended unconditionally — the source
comment notes it skips any duplicate-join check and relies on the alias
being deterministic. -/
def ensureJoinsLoop (sel : Bool) : List String → QB → String → String →
    QB × String
  | [], qb, currentAlias, _ =>
    (qb, if currentAlias == "" then "entity" else currentAlias)
  | part :: rest, qb, currentAlias, builtPath =>
    let nextAlias := if builtPath == "" then part else builtPath ++ "_" ++ part
    let joinPath := currentAlias ++ "." ++ part
    let qb' := { qb with joins := qb.joins ++ [(joinPath, nextAlias, sel)] }
    ensureJoinsLoop sel rest qb' nextAlias nextAlias

/-- `ensureJoinsForPath(queryBuilder, path, select)`: returns the mutated
builder and the final alias. -/
def ensureJoinsForPath (qb : QB) (path : String) (sel : Bool) : QB × String :=
  ensureJoinsLoop sel (splitDots path) qb "entity" ""

/-- JS `values || [value]` used by the `in`/`nin` cases (an array, even an
empty one, is truthy). -/
def jsOrArr (values : Option (List String)) (value : JVal) : List JVal :=
  match values with
  | some vs => vs.map some
  | none => [value]

/-- The operator `switch` of `applyFilters`, applied once the target alias
and column are known. -/
def applyOp (qb : QB) (als col paramName : String) (f : FilterOptions) :
    QB :=
  let lhs := als ++ "." ++ col
  if f.operator == "eq" then
    qb.andWhere (lhs ++ " = :" ++ paramName) [(paramName, .one f.value)]
  else if f.operator == "ne" then
    qb.andWhere (lhs ++ " != :" ++ paramName) [(paramName, .one f.value)]
  else if f.operator == "gt" then
    qb.andWhere (lhs ++ " > :" ++ paramName) [(paramName, .one f.value)]
  else if f.operator == "gte" then
    qb.andWhere (lhs ++ " >= :" ++ paramName) [(paramName, .one f.value)]
  else if f.operator == "lt" then
    qb.andWhere (lhs ++ " < :" ++ paramName) [(paramName, .one f.value)]
  else if f.operator == "lte" then
    qb.andWhere (lhs ++ " <= :" ++ paramName) [(paramName, .one f.value)]
  else if f.operator == "in" then
    qb.andWhere (lhs ++ " IN (:..." ++ paramName ++ ")")
      [(paramName, .many (jsOrArr f.values f.value))]
  else if f.operator == "nin" then
    qb.andWhere (lhs ++ " NOT IN (:..." ++ paramName ++ ")")
      [(paramName, .many (jsOrArr f.values f.value))]
  else if f.operator == "like" then
    qb.andWhere (lhs ++ " LIKE :" ++ paramName)
      [(paramName, .one (some ("%" ++ jstr f.value ++ "%")))]
  else if f.operator == "ilike" then
    qb.andWhere (lhs ++ " ILIKE :" ++ paramName)
      [(paramName, .one (some ("%" ++ jstr f.value ++ "%")))]
  else if f.operator == "between" then
    match f.values with
    | some (a :: b :: []) =>
      qb.andWhere
        (lhs ++ " BETWEEN :" ++ paramName ++ "_start AND :" ++ paramName ++
          "_end")
        [(paramName ++ "_start", .one (some a)),
         (paramName ++ "_end", .one (some b))]
    | _ => qb
  else if f.operator == "isNull" then
    qb.andWhere (lhs ++ " IS NULL") []
  else if f.operator == "isNotNull" then
    qb.andWhere (lhs ++ " IS NOT NULL") []
  else if f.operator == "contains" then
    qb.andWhere (lhs ++ " ILIKE :" ++ paramName)
      [(paramName, .one (some ("%" ++ jstr f.value ++ "%")))]
  else if f.operator == "startsWith" then
    qb.andWhere (lhs ++ " ILIKE :" ++ paramName)
      [(paramName, .one (some (jstr f.value ++ "%")))]
  else if f.operator == "endsWith" then
    qb.andWhere (lhs ++ " ILIKE :" ++ paramName)
      [(paramName, .one (some ("%" ++ jstr f.value)))]
  else if f.operator == "regex" then
    qb.andWhere (lhs ++ " ~ :" ++ paramName) [(paramName, .one f.value)]
  else if f.operator == "dateRange" then
    match f.values with
    | some (a :: b :: []) =>
      qb.andWhere
        (lhs ++ " BETWEEN :" ++ paramName ++ "_start AND :" ++ paramName ++
          "_end")
        [(paramName ++ "_start", .one (some a)),
         (paramName ++ "_end", .one (some b))]
    | _ => qb
  else
    qb.warn ("Unsupported filter operator: " ++ f.operator)

/-- One iteration of the `applyFilters` `forEach`: resolve the target
alias/column (through `ReflectionService.resolvePath` for dotted fields,
through the `filter` capability otherwise), dropping the condition with a
warning when invalid, then run the operator switch. -/
def applyOneFilter (env : Env) (entity : String) (idx : Nat)
    (f : FilterOptions) (qb : QB) : QB :=
  let paramName := "filter_" ++ toString idx
  if strHasChar f.field '.' then
    let resolved := ReflectionService.resolvePath env entity f.field
    if !resolved.valid || resolved.finalField.isNone then
      qb.warn ("Invalid filter path: " ++ f.field)
    else
      let relationPath :=
        joinSep "." ((jsSplitDot f.field).dropLast)
      let step := ensureJoinsForPath qb relationPath false
      applyOp step.1 step.2 (resolved.finalField.getD "") paramName f
  else
    if !(ReflectionService.validateField env entity f.field "filter") then
      qb.warn ("Field " ++ f.field ++ " is not filterable for entity " ++
        entity)
    else
      applyOp qb "entity" f.field paramName f

/-- The indexed `forEach` of `applyFilters`. -/
def applyFiltersAux (env : Env) (entity : String) :
    Nat → List FilterOptions → QB → QB
  | _, [], qb => qb
  | i, f :: rest, qb =>
    applyFiltersAux env entity (i + 1) rest (applyOneFilter env entity i f qb)

/-- `applyFilters`: parameter names are `filter_<index>` with the index
taken from the ORIGINAL position in the list. -/
def applyFilters (env : Env) (entity : String) (filters : List FilterOptions)
    (qb : QB) : QB :=
  applyFiltersAux env entity 0 filters qb

/-- One iteration of the `applySearch` field loop, producing the mutated
builder (joins for dotted fields) and the accumulated condition strings.
A dotted field is accepted whenever its path resolves with a final field —
no searchable-capability check; a plain field must pass the `search`
capability check. -/
def searchStep (env : Env) (entity : String) (cs : Bool) (field : String)
    (acc : QB × List String) : QB × List String :=
  let qb := acc.1
  let conds := acc.2
  let op := if cs then "LIKE" else "ILIKE"
  if strHasChar field '.' then
    let resolved := ReflectionService.resolvePath env entity field
    if !resolved.valid || resolved.finalField.isNone then (qb, conds)
    else
      let relationPath := joinSep "." ((jsSplitDot field).dropLast)
      let step := ensureJoinsForPath qb relationPath false
      (step.1, conds ++ [step.2 ++ "." ++ resolved.finalField.getD "" ++ " " ++
        op ++ " :searchQuery"])
  else if !(ReflectionService.validateField env entity field "search") then
    (qb, conds)
  else
    (qb, conds ++ ["entity." ++ field ++ " " ++ op ++ " :searchQuery"])

/-- `applySearch`: builds the per-field conditions and appends ONE OR-group
`andWhere` bound to a single `searchQuery` parameter (`%query%` unless the
mode is `exact`). -/
def applySearch (env : Env) (entity : String) (search : SearchOptions)
    (qb : QB) : QB :=
  let query := search.query
  let fields := search.fields.getD []
  let mode := search.mode.getD "partial"
  let cs := search.caseSensitive.getD false
  if query == "" || fields.isEmpty then qb
  else
    let res := fields.foldl (fun acc f => searchStep env entity cs f acc)
      (qb, [])
    if res.2.length > 0 then
      res.1.andWhere ("(" ++ joinSep " OR " res.2 ++ ")")
        [("searchQuery",
          .one (some (if mode == "exact" then query
            else "%" ++ query ++ "%")))]
    else res.1

/-- One iteration of the `applySorting` `forEach`. -/
def applySortOne (env : Env) (entity : String) (s : SortOptions) (qb : QB) :
    QB :=
  if strHasChar s.field '.' then
    let resolved := ReflectionService.resolvePath env entity s.field
    if !resolved.valid || resolved.finalField.isNone then
      qb.warn ("Invalid sort path: " ++ s.field)
    else
      let relationPath := joinSep "." ((jsSplitDot s.field).dropLast)
      let step := ensureJoinsForPath qb relationPath false
      { step.1 with orderBys := step.1.orderBys ++
          [(step.2 ++ "." ++ resolved.finalField.getD "", s.direction)] }
  else
    if !(ReflectionService.validateField env entity s.field "sort") then
      qb.warn ("Field " ++ s.field ++ " is not sortable for entity " ++ entity)
    else
      { qb with orderBys := qb.orderBys ++ [("entity." ++ s.field,
          s.direction)] }

/-- `applySorting`. -/
def applySorting (env : Env) (entity : String) (sorts : List SortOptions)
    (qb : QB) : QB :=
  sorts.foldl (fun qb s => applySortOne env entity s qb) qb

/-- `applyGroupBy`. -/
def applyGroupBy (groupBy : List String) (qb : QB) : QB :=
  groupBy.foldl
    (fun qb f => { qb with groupBys := qb.groupBys ++ ["entity." ++ f] }) qb

/-- One iteration of the `applyHaving` `forEach`: dotted fields are resolved
(silently skipped when invalid), plain fields are used as-is (NO capability
check), then the restricted operator switch runs. -/
def applyHavingOne (env : Env) (entity : String) (idx : Nat)
    (c : FilterOptions) (qb : QB) : QB :=
  let paramName := "having_" ++ toString idx
  let go (qb : QB) (als col : String) : QB :=
    let lhs := als ++ "." ++ col
    if c.operator == "eq" then
      qb.addHaving (lhs ++ " = :" ++ paramName) [(paramName, .one c.value)]
    else if c.operator == "gt" then
      qb.addHaving (lhs ++ " > :" ++ paramName) [(paramName, .one c.value)]
    else if c.operator == "gte" then
      qb.addHaving (lhs ++ " >= :" ++ paramName) [(paramName, .one c.value)]
    else if c.operator == "lt" then
      qb.addHaving (lhs ++ " < :" ++ paramName) [(paramName, .one c.value)]
    else if c.operator == "lte" then
      qb.addHaving (lhs ++ " <= :" ++ paramName) [(paramName, .one c.value)]
    else
      qb.warn ("Unsupported having operator: " ++ c.operator)
  if strHasChar c.field '.' then
    let resolved := ReflectionService.resolvePath env entity c.field
    if !resolved.valid || resolved.finalField.isNone then qb
    else
      let relationPath := joinSep "." ((jsSplitDot c.field).dropLast)
      let step := ensureJoinsForPath qb relationPath false
      go step.1 step.2 (resolved.finalField.getD "")
  else
    go qb "entity" c.field

/-- The indexed `forEach` of `applyHaving`. -/
def applyHavingAux (env : Env) (entity : String) :
    Nat → List FilterOptions → QB → QB
  | _, [], qb => qb
  | i, c :: rest, qb =>
    applyHavingAux env entity (i + 1) rest (applyHavingOne env entity i c qb)

/-- `applyHaving`. -/
def applyHaving (env : Env) (entity : String) (having : List FilterOptions)
    (qb : QB) : QB :=
  applyHavingAux env entity 0 having qb

/-- `applySelect`. -/
def applySelect (select : SelectOptions) (qb : QB) : QB :=
  let qb1 :=
    match select.fields with
    | some fs =>
      if fs.length > 0 then
        { qb with selectClause := some (joinSep ", "
            (fs.map (fun f => "entity." ++ f))) }
      else qb
    | none => qb
  match select.exclude with
  | some ex =>
    if ex.length > 0 then
      qb1.warn "Exclude fields not fully supported in TypeORM query builder"
    else qb1
  | none => qb1

/-- `applyRelations`: one `ensureJoinsForPath` per requested relation path,
with join-and-select exactly when `eager === true`. -/
def applyRelations (relations : RelationOptions) (qb : QB) : QB :=
  match relations.relations with
  | none => qb
  | some rs =>
    if rs.isEmpty then qb
    else rs.foldl
      (fun qb p => (ensureJoinsForPath qb p (relations.eager == some true)).1)
      qb

/-- `buildAdvancedQuery`: the full assembly sequence (select, relations,
filters, search, sorting, groupBy, having, distinct, cache, lock), each
stage guarded by the same truthiness test as the source. -/
def buildAdvancedQuery (env : Env) (entity : String)
    (options : AdvancedQueryOptions) : QB :=
  let qb : QB := {}
  let qb :=
    match options.select with
    | some sel =>
      match sel.fields with
      | some fs => if fs.length > 0 then applySelect sel qb else qb
      | none => qb
    | none => qb
  let qb :=
    match options.relations with
    | some rel =>
      match rel.relations with
      | some rs => if rs.length > 0 then applyRelations rel qb else qb
      | none => qb
    | none => qb
  let qb :=
    match options.filters with
    | some fs => if fs.length > 0 then applyFilters env entity fs qb else qb
    | none => qb
  let qb :=
    match options.search with
    | some s => if s.query != "" then applySearch env entity s qb else qb
    | none => qb
  let qb :=
    match options.sort with
    | some ss => if ss.length > 0 then applySorting env entity ss qb else qb
    | none => qb
  let qb :=
    match options.groupBy with
    | some gs => if gs.length > 0 then applyGroupBy gs qb else qb
    | none => qb
  let qb :=
    match options.having with
    | some hs => if hs.length > 0 then applyHaving env entity hs qb else qb
    | none => qb
  let qb := if options.distinct == some true then
      { qb with isDistinct := true } else qb
  let qb :=
    match options.cache with
    | some (.num n) =>
      if n != 0 then { qb with cacheSeconds := some (some n) } else qb
    | some (.flag b) =>
      if b then { qb with cacheSeconds := some none } else qb
    | none => qb
  match options.lock with
  | some l => if l != "" then { qb with lockMode := some l } else qb
  | none => qb

end AdvancedQueryBuilderService

/-- `Math.ceil(a / b)` for integers, `b ≠ 0` (the services never divide by
zero on the paths under verification). -/
def jsCeilDiv (a b : Int) : Int :=
  if b = 0 then 0 else -((-a).fdiv b)

/-- The pagination block of `PaginatedResult`. -/
structure PaginationBlock where
  page : Int
  limit : Int
  total : Nat
  totalPages : Int
  hasNext : Bool
  hasPrev : Bool
  offset : Int
deriving DecidableEq

/-- `PaginatedResult<T>`. -/
structure PaginatedResult (T : Type) where
  data : List T
  pagination : PaginationBlock

/-- The storage backend behind the TypeORM repository: `getCount` answers
the count query for a builder state, `getMany` answers the data query. -/
structure StorageBackend (T : Type) where
  getCount : QB → Nat
  getMany : QB → List T

namespace AdvancedQueryBuilderService

open AdvancedMetadataService

/-- `executePaginatedQuery`: destructure page/limit with defaults (the
defaults apply only when the value is absent — 0 or negative values pass
through), build the query, run the count query BEFORE applying
`skip`/`take`, run the data query after, and assemble the pagination
block. -/
def executePaginatedQuery {T : Type} (env : Env) (entity : String)
    (options : AdvancedQueryOptions) (backend : StorageBackend T) :
    PaginatedResult T :=
  let page : Int := (options.pagination.bind (fun p => p.page)).getD 1
  let limit : Int := (options.pagination.bind (fun p => p.limit)).getD 10
  let offset := (page - 1) * limit
  let qb := buildAdvancedQuery env entity options
  let total := backend.getCount qb
  let qb2 := { qb with skipCount := some offset, takeCount := some limit }
  let data := backend.getMany qb2
  let totalPages := jsCeilDiv (total : Int) limit
  { data := data
    pagination :=
      { page := page, limit := limit, total := total
        totalPages := totalPages
        hasNext := decide (page < totalPages)
        hasPrev := decide (page > 1)
        offset := offset } }

end AdvancedQueryBuilderService

/-- `SimpleFilter.value: any` — in practice a scalar or an array; the
mapper dispatches on `Array.isArray`. -/
inductive SimpleVal
  | scalar : JVal → SimpleVal
  | arr : List String → SimpleVal
deriving DecidableEq

/-- `SimpleFilter`. -/
structure SimpleFilter where
  field : String
  value : SimpleVal
  operator : Option String := none
deriving DecidableEq

/-- `SimpleSort`. -/
structure SimpleSort where
  field : String
  direction : Option String := none
deriving DecidableEq

/-- `SimpleSearch`. -/
structure SimpleSearch where
  query : String
  fields : Option (List String) := none
deriving DecidableEq

/-- `DynamicQueryOptions`. -/
structure DynamicQueryOptions where
  filters : Option (List SimpleFilter) := none
  search : Option SimpleSearch := none
  sort : Option (List SimpleSort) := none
  page : Option Int := none
  limit : Option Int := none
  includeRels : Option (List String) := none
  select : Option (List String) := none
  exclude : Option (List String) := none
deriving DecidableEq

namespace DynamicQueryBuilderService

open AdvancedMetadataService AdvancedQueryBuilderService

/-- JS `v || d` on a possibly-absent number: `undefined` and `0` fall back
to the default, every other value — including negatives — passes through. -/
def jsOrInt (v : Option Int) (d : Int) : Int :=
  match v with
  | none => d
  | some x => if x = 0 then d else x

/-- `mapDynamicToAdvancedOptions`: translates the frontend-friendly options
to `AdvancedQueryOptions`.  Pagination, when requested, is
`page: options.page || 1` and `limit: Math.min(options.limit || 20, 100)`. -/
def mapDynamicToAdvancedOptions (options : DynamicQueryOptions)
    (withPagination : Bool) : AdvancedQueryOptions :=
  let m0 : AdvancedQueryOptions := {}
  let m1 :=
    match options.select with
    | some sel =>
      if sel.length > 0 then
        let so : SelectOptions :=
          { fields := some sel, exclude := some (options.exclude.getD []) }
        { m0 with select := some so }
      else m0
    | none => m0
  let m2 :=
    match options.includeRels with
    | some inc =>
      if inc.length > 0 then
        let ro : RelationOptions :=
          { relations := some inc, eager := some true, maxDepth := some 1 }
        { m1 with relations := some ro }
      else m1
    | none => m1
  let m3 :=
    match options.filters with
    | some fs =>
      if fs.length > 0 then
        { m2 with filters := some (fs.map (fun f =>
            { field := f.field
              operator := f.operator.getD "eq"
              value := match f.value with
                | .scalar v => v
                | .arr _ => none
              values := match f.value with
                | .scalar _ => none
                | .arr a => some a })) }
      else m2
    | none => m2
  let m4 :=
    match options.search with
    | some s =>
      if s.query != "" then
        let so : SearchOptions :=
          { query := s.query, fields := some (s.fields.getD [])
            mode := some "partial", caseSensitive := some false }
        { m3 with search := some so }
      else m3
    | none => m3
  let m5 :=
    match options.sort with
    | some ss =>
      if ss.length > 0 then
        { m4 with sort := some (ss.map (fun s =>
            { field := s.field, direction := s.direction.getD "ASC" })) }
      else m4
    | none => m4
  if withPagination then
    let po : PaginationOptions :=
      { page := some (jsOrInt options.page 1)
        limit := some (min (jsOrInt options.limit 20) 100) }
    { m5 with pagination := some po }
  else m5

/-- `executeDynamicQuery`: map the options (with pagination) and delegate
to `executePaginatedQuery`. -/
def executeDynamicQuery {T : Type} (env : Env) (entity : String)
    (options : DynamicQueryOptions) (backend : StorageBackend T) :
    PaginatedResult T :=
  executePaginatedQuery env entity
    (mapDynamicToAdvancedOptions options true) backend

end DynamicQueryBuilderService

open AdvancedMetadataService

/-- The path-resolution semantics asserted by the specification sentence
"if a segment matches a declared relation of the current entity, it is
appended to the join chain and resolution continues against the TARGET
entity's relations": after a relation segment the walk switches to the
target entity (looked up in the schema environment by its name) and the
final segment must be a column of the entity reached.  Written from the
spec's words for comparison with the source's `resolveLoop`, which never
switches entities. -/
def specTargetWalk (env : Env) :
    String → List String → List String → Option (List String × String)
  | _, _, [] => none
  | entity, chain, [c] =>
    match env entity with
    | none => none
    | some m => if (colLookup m c).isSome then some (chain, c) else none
  | entity, chain, seg :: rest =>
    match env entity with
    | none => none
    | some m =>
      match relLookup m seg with
      | some r => specTargetWalk env r.target (chain ++ [seg]) rest
      | none => none

/-- A varchar column. -/
def colV (n : String) : IColumnMetadata := { name := n, ctype := "varchar" }

/-- An int column. -/
def colI (n : String) : IColumnMetadata := { name := n, ctype := "int" }

/-- A many-to-one relation towards the named target entity. -/
def relTo (n t : String) : IRelationMetadata := { name := n, target := t }

/-- Schema in which the multi-hop chain lives on the TARGET entities:
`E` has only the relation `profile` (and column `id`); `profile`'s target
`P` declares `address`; `address`'s target `A` declares column `city`. -/
def envTarget : Env := fun s =>
  if s == "E" then
    some { name := "E", columns := [colI "id"],
           relations := [relTo "profile" "P"] }
  else if s == "P" then
    some { name := "P", columns := [colV "name"],
           relations := [relTo "address" "A"] }
  else if s == "A" then
    some { name := "A", columns := [colV "city"], relations := [] }
  else none

/-- Metadata for a `User` entity that itself declares every path segment:
relations `profile` and `address` plus columns `id`, `role`, `email`,
`displayName`, `createdAt`, `city` and the non-text column `age`. -/
def userMeta : IEntityMetadata :=
  { name := "User"
    columns := [colI "id", colV "role", colV "email", colV "displayName",
      { name := "createdAt", ctype := "timestamp" }, colV "city", colI "age"]
    relations := [relTo "profile" "Profile", relTo "address" "Address"] }

/-- Schema environment knowing exactly the `User` entity of `userMeta`. -/
def envRoot : Env := fun s => if s == "User" then some userMeta else none

/-- Schema environment that knows no entity at all. -/
def envEmpty : Env := fun _ => none

/-- Filter `profile.address.city eq Hanoi` (spec scenario 4). -/
def fPAC : FilterOptions :=
  { field := "profile.address.city", operator := "eq", value := some "Hanoi" }

/-- Filter `profile.city eq x`. -/
def fPCx : FilterOptions :=
  { field := "profile.city", operator := "eq", value := some "x" }

/-- Filter `profile.city eq y`. -/
def fPCy : FilterOptions :=
  { field := "profile.city", operator := "eq", value := some "y" }

/-- Filter on the unknown field `xyz` (spec scenario 6). -/
def fXyz : FilterOptions :=
  { field := "xyz", operator := "eq", value := some "1" }

/-- Filter `role eq user` (spec scenario 6). -/
def fRole : FilterOptions :=
  { field := "role", operator := "eq", value := some "user" }

/-- A `between` filter with only one value (spec scenario 3). -/
def fBetweenOne : FilterOptions :=
  { field := "createdAt", operator := "between", values := some ["2024-01-01"] }

/-- A `like` filter whose value is already a `%`-pattern. -/
def fLikePat : FilterOptions :=
  { field := "email", operator := "like", value := some "%a%" }

open AdvancedQueryBuilderService

/-- The joins `ensureJoinsForPath` appends for the given parts, starting
from the given current alias and built path. -/
def joinsForPath (sel : Bool) : String → String → List String →
    List (String × String × Bool)
  | _, _, [] => []
  | curr, built, part :: rest =>
    let nextAlias := if built == "" then part else built ++ "_" ++ part
    (curr ++ "." ++ part, nextAlias, sel) ::
      joinsForPath sel nextAlias nextAlias rest

/-- The final alias `ensureJoinsForPath` returns for the given parts. -/
def aliasForPath : String → String → List String → String
  | curr, _, [] => if curr == "" then "entity" else curr
  | _, built, part :: rest =>
    let nextAlias := if built == "" then part else built ++ "_" ++ part
    aliasForPath nextAlias nextAlias rest

/-- `ensureJoinsLoop` only appends joins, and both the appended joins and
the returned alias are functions of the path alone. -/
theorem ensureJoinsLoop_spec (sel : Bool) :
    ∀ (parts : List String) (qb : QB) (curr built : String),
    ensureJoinsLoop sel parts qb curr built =
      ({ qb with joins := qb.joins ++ joinsForPath sel curr built parts },
       aliasForPath curr built parts) := by
  intro parts
  induction parts with
  | nil =>
    intro qb curr built
    simp [ensureJoinsLoop, joinsForPath, aliasForPath]
  | cons p ps ih =>
    intro qb curr built
    simp only [ensureJoinsLoop, joinsForPath, aliasForPath]
    rw [ih]
    simp [List.append_assoc]

/-- C1 counterexample: in a schema where the tail of `profile.address.city`
is declared on the TARGET entities (as the claim's walk requires) but not
on the root entity, the claimed semantics (`specTargetWalk`, written from
the spec) resolves the path to the chain `[profile, address]` with
terminal column `city`, yet the source's `resolvePath` rejects the path at
`address` — it looks every segment up on the ROOT entity — and the filter
is dropped with a warning, producing a plan with NO joins and NO
predicate instead of the claimed two joins and qualified predicate. -/
theorem C1_target_walk_cx :
    specTargetWalk envTarget "E" [] ["profile", "address", "city"] =
      some (["profile", "address"], "city") ∧
    (ReflectionService.resolvePath envTarget "E" "profile.address.city").valid
      = false ∧
    buildAdvancedQuery envTarget "E" { filters := some [fPAC] } =
      { warnings := ["Invalid filter path: profile.address.city"] } :=
  ⟨by decide, by decide, by decide⟩

/-- C1 (amended): `resolvePath` resolves EVERY segment against the root
entity's own relations and columns (the source never advances into the
target entity).  First conjunct: whenever each leading segment is a
relation of the root metadata `m` and the final segment is a column (and
not a relation) of `m`, the walk succeeds with that chain and terminal
field.  Second conjunct: on a schema whose root declares `profile` and
`address` as relations and `city` as a column, the filter
`profile.address.city eq Hanoi` compiles to exactly the two joins aliased
`profile` and `profile_address` and one predicate qualified by
`profile_address`. -/
theorem C1_root_walk :
    (∀ (m : IEntityMetadata) (chain segs : List String) (c : String),
      (∀ s ∈ segs, (relLookup m s).isSome) →
      relLookup m c = none →
      (colLookup m c).isSome →
      resolveLoop m chain (segs ++ [c]) =
        { valid := true, relationChain := chain ++ segs,
          finalField := some c }) ∧
    buildAdvancedQuery envRoot "User" { filters := some [fPAC] } =
      { joins := [("entity.profile", "profile", false),
                  ("profile.address", "profile_address", false)]
        wheres := [("profile_address.city = :filter_0",
          [("filter_0", .one (some "Hanoi"))])] } := by
  constructor
  · intro m chain segs c hrel hc hcol
    induction segs generalizing chain with
    | nil =>
      simp only [List.nil_append, resolveLoop, hc]
      simp [hcol]
    | cons s ss ih =>
      obtain ⟨r, hr⟩ :=
        Option.isSome_iff_exists.mp (hrel s (by simp))
      simp only [List.cons_append, resolveLoop, hr, List.append_eq]
      rw [ih (chain ++ [s]) (fun x hx => hrel x (List.mem_cons_of_mem s hx))]
      simp
  · decide

/-- C1 witness: the first conjunct of `C1_root_walk` instantiated on
`userMeta` with chain segments `[profile, address]` and terminal column
`city`. -/
theorem C1_root_walk_witness :
    resolveLoop userMeta [] (["profile", "address"] ++ ["city"]) =
      { valid := true, relationChain := [] ++ ["profile", "address"],
        finalField := some "city" } :=
  C1_root_walk.1 userMeta [] ["profile", "address"] "city"
    (by decide) (by decide) (by decide)

/-- C2 counterexample: two filter conditions referencing the same relation
chain `profile` produce TWO identical `leftJoin` entries (same join path,
same alias) in the plan — the join is added once per referencing clause,
not deduplicated, contradicting "exactly one join per distinct chain". -/
theorem C2_duplicate_join_cx :
    (buildAdvancedQuery envRoot "User" { filters := some [fPCx, fPCy] }).joins
      = [("entity.profile", "profile", false),
         ("entity.profile", "profile", false)] := by decide

/-- C2 (amended): the alias of every join step is deterministic — parent
alias + `_` + relation name, a function of the chain alone — so two clauses
referencing the same chain agree on aliases; but `ensureJoinsForPath`
appends a fresh join on every call (no duplicate check), so a chain
referenced twice contributes its joins twice rather than being reused. -/
theorem C2_joins_deterministic_not_deduped :
    (∀ (qb : QB) (path : String) (sel : Bool),
      ensureJoinsForPath qb path sel =
        ({ qb with joins := qb.joins ++
            joinsForPath sel "entity" "" (splitDots path) },
         aliasForPath "entity" "" (splitDots path))) ∧
    (∀ (qb : QB) (path : String) (sel : Bool),
      ((ensureJoinsForPath (ensureJoinsForPath qb path sel).1 path sel).1).joins
        = qb.joins ++ joinsForPath sel "entity" "" (splitDots path) ++
            joinsForPath sel "entity" "" (splitDots path)) := by
  constructor
  · intro qb path sel
    exact ensureJoinsLoop_spec sel (splitDots path) qb "entity" ""
  · intro qb path sel
    simp only [ensureJoinsForPath]
    rw [ensureJoinsLoop_spec sel (splitDots path) qb "entity" ""]
    rw [ensureJoinsLoop_spec sel (splitDots path) _ "entity" ""]

/-- Replace every non-overlapping occurrence of `pat` in a character list;
the fuel argument keeps the recursion structural. -/
def replaceChars (pat rep : List Char) : Nat → List Char → List Char
  | 0, l => l
  | _ + 1, [] => []
  | fuel + 1, c :: rest =>
    if listStartsWith (c :: rest) pat then
      rep ++ replaceChars pat rep fuel ((c :: rest).drop pat.length)
    else
      c :: replaceChars pat rep fuel rest

/-- Replace every occurrence of `pat` in `s` by `rep` (identity for the
empty pattern). -/
def strReplace (s pat rep : String) : String :=
  if pat.toList.isEmpty then s
  else String.mk (replaceChars pat.toList rep.toList s.toList.length s.toList)

/-- Rename one bound-parameter name inside a compiled where clause, both in
the condition text and in the parameter list — used to state plan equality
up to bound-parameter names. -/
def renameWhere (o n : String) (w : String × Params) : String × Params :=
  (strReplace w.1 o n, w.2.map (fun p => (if p.1 == o then n else p.1, p.2)))

/-- C3 counterexample: with the unknown field `xyz` dropped, the surviving
`role` condition keeps its ORIGINAL positional parameter name `filter_1`,
while compiling the same options without the invalid condition names the
parameter `filter_0` — so the two plans are NOT equal, contrary to the
claim that remaining predicates' bound parameter names are identical. -/
theorem C3_param_names_cx :
    (buildAdvancedQuery envRoot "User" { filters := some [fXyz, fRole] }).wheres
      = [("entity.role = :filter_1", [("filter_1", .one (some "user"))])] ∧
    (buildAdvancedQuery envRoot "User" { filters := some [fRole] }).wheres
      = [("entity.role = :filter_0", [("filter_0", .one (some "user"))])] ∧
    (buildAdvancedQuery envRoot "User" { filters := some [fXyz, fRole] }).wheres
      ≠ (buildAdvancedQuery envRoot "User" { filters := some [fRole] }).wheres :=
  ⟨by decide, by decide, by decide⟩

/-- C3 (amended): an invalid (non-dotted, non-filterable) condition never
aborts compilation — it is dropped with a warning and the remaining
conditions compile exactly as they would on their own, except that bound
parameter names keep their original positional indices (`filter_<original
index>`); after renaming those parameters the two plans' predicate lists
coincide. -/
theorem C3_lenient_drop_param_shift :
    (∀ (env : Env) (entity : String) (i : Nat) (c : FilterOptions)
        (rest : List FilterOptions) (qb : QB),
      strHasChar c.field '.' = false →
      ReflectionService.validateField env entity c.field "filter" = false →
      applyFiltersAux env entity i (c :: rest) qb =
        applyFiltersAux env entity (i + 1) rest
          (qb.warn ("Field " ++ c.field ++ " is not filterable for entity "
            ++ entity))) ∧
    ((buildAdvancedQuery envRoot "User"
        { filters := some [fXyz, fRole] }).wheres.map
          (renameWhere "filter_1" "filter_0")
      = (buildAdvancedQuery envRoot "User"
          { filters := some [fRole] }).wheres) := by
  constructor
  · intro env entity i c rest qb hdot hval
    simp only [applyFiltersAux, applyOneFilter, hdot, hval]
    simp
  · decide

/-- C3 witness: the drop equation of `C3_lenient_drop_param_shift`
instantiated on the unknown field `xyz` followed by `role eq user`. -/
theorem C3_lenient_drop_param_shift_witness :
    applyFiltersAux envRoot "User" 0 (fXyz :: [fRole]) {} =
      applyFiltersAux envRoot "User" (0 + 1) [fRole]
        (QB.warn {} ("Field " ++ fXyz.field ++
          " is not filterable for entity " ++ "User")) :=
  C3_lenient_drop_param_shift.1 envRoot "User" 0 fXyz [fRole] {}
    (by decide) (by decide)

/-- C6 counterexample: a `between` condition with only one value is dropped
WITHOUT any report — the compiled state carries no predicate for it and,
contrary to the claim of an `InvalidValueArity` report, not even a logger
warning (the `warnings` channel, which records every `logger.warn`, stays
empty); the sibling `role` condition still compiles. -/
theorem C6_silent_drop_cx :
    (buildAdvancedQuery envRoot "User"
      { filters := some [fBetweenOne, fRole] }).wheres
      = [("entity.role = :filter_1", [("filter_1", .one (some "user"))])] ∧
    (buildAdvancedQuery envRoot "User"
      { filters := some [fBetweenOne, fRole] }).warnings = [] :=
  ⟨by decide, by decide⟩

/-- Helper: a `between`/`dateRange` condition whose `values` is not a
two-element array leaves the builder untouched (no clause, no warning). -/
theorem applyOp_wrong_arity (qb : QB) (als col paramName : String)
    (f : FilterOptions)
    (hop : f.operator = "between" ∨ f.operator = "dateRange")
    (hv : ∀ a b, f.values ≠ some [a, b]) :
    applyOp qb als col paramName f = qb := by
  rcases hop with hop | hop <;>
  · simp +decide only [applyOp, hop]
    match hfv : f.values with
    | none => simp
    | some [] => simp
    | some [a] => simp
    | some (a :: b :: c :: rest) => simp
    | some [a, b] => exact absurd hfv (hv a b)

/-- C6 (amended): `between`/`dateRange` with exactly two values compiles to
one inclusive `BETWEEN` predicate with `_start`/`_end` parameters; with any
other arity the condition is dropped SILENTLY — the builder state is
completely unchanged, with no report of any kind — while sibling valid
conditions still compile at their original parameter indices. -/
theorem C6_between_arity :
    (∀ (qb : QB) (als col paramName : String) (f : FilterOptions)
        (a b : String),
      (f.operator = "between" ∨ f.operator = "dateRange") →
      f.values = some [a, b] →
      applyOp qb als col paramName f =
        qb.andWhere (als ++ "." ++ col ++ " BETWEEN :" ++ paramName ++
            "_start AND :" ++ paramName ++ "_end")
          [(paramName ++ "_start", .one (some a)),
           (paramName ++ "_end", .one (some b))]) ∧
    (∀ (qb : QB) (als col paramName : String) (f : FilterOptions),
      (f.operator = "between" ∨ f.operator = "dateRange") →
      (∀ a b, f.values ≠ some [a, b]) →
      applyOp qb als col paramName f = qb) ∧
    (∀ (env : Env) (entity : String) (i : Nat) (f : FilterOptions)
        (rest : List FilterOptions) (qb : QB),
      strHasChar f.field '.' = false →
      ReflectionService.validateField env entity f.field "filter" = true →
      (f.operator = "between" ∨ f.operator = "dateRange") →
      (∀ a b, f.values ≠ some [a, b]) →
      applyFiltersAux env entity i (f :: rest) qb =
        applyFiltersAux env entity (i + 1) rest qb) := by
  refine ⟨?_, ?_, ?_⟩
  · intro qb als col paramName f a b hop hv
    rcases hop with hop | hop <;> simp +decide [applyOp, hop, hv]
  · intro qb als col paramName f hop hv
    exact applyOp_wrong_arity qb als col paramName f hop hv
  · intro env entity i f rest qb hdot hval hop hv
    have hskip : applyOneFilter env entity i f qb = qb := by
      simp only [applyOneFilter, hdot, hval]
      simp only [Bool.not_true, Bool.false_eq_true, if_false]
      exact applyOp_wrong_arity qb _ _ _ f hop hv
    simp only [applyFiltersAux, hskip]

/-- C6 witness: a `between` filter with one value leaves the builder
unchanged and the sibling condition compiles with its original index. -/
theorem C6_between_arity_witness :
    applyFiltersAux envRoot "User" 0 (fBetweenOne :: [fRole]) {} =
      applyFiltersAux envRoot "User" (0 + 1) [fRole] {} :=
  C6_between_arity.2.2 envRoot "User" 0 fBetweenOne [fRole] {}
    (by decide) (by decide) (Or.inl rfl)
    (by intro a b h; simp [fBetweenOne] at h)

/-- C8 counterexample: a `like` filter whose value `%a%` is ALREADY a
pattern is still wrapped, binding `%%a%%` rather than leaving the value
unchanged as the claim requires. -/
theorem C8_pattern_wrap_cx :
    (buildAdvancedQuery envRoot "User" { filters := some [fLikePat] }).wheres
      = [("entity.email LIKE :filter_0",
          [("filter_0", .one (some "%%a%%"))])] ∧
    ("%%a%%" : String) ≠ "%a%" :=
  ⟨by decide, by decide⟩

/-- C8 (amended): `like` compiles a case-sensitive `LIKE` and `ilike` a
case-insensitive `ILIKE` predicate, and in BOTH cases the bound parameter
is unconditionally `%value%` — there is no already-a-pattern check, so a
value that already contains wildcards is wrapped again. -/
theorem C8_like_always_wraps :
    ∀ (qb : QB) (als col paramName : String) (f : FilterOptions)
      (v : String), f.value = some v →
      (f.operator = "like" →
        applyOp qb als col paramName f =
          qb.andWhere (als ++ "." ++ col ++ " LIKE :" ++ paramName)
            [(paramName, .one (some ("%" ++ v ++ "%")))]) ∧
      (f.operator = "ilike" →
        applyOp qb als col paramName f =
          qb.andWhere (als ++ "." ++ col ++ " ILIKE :" ++ paramName)
            [(paramName, .one (some ("%" ++ v ++ "%")))]) := by
  intro qb als col paramName f v hv
  constructor
  · intro hop
    simp +decide [applyOp, hop, hv, jstr]
  · intro hop
    simp +decide [applyOp, hop, hv, jstr]

/-- C8 witness: the `like` case applied to the already-a-pattern value. -/
theorem C8_like_always_wraps_witness :
    applyOp {} "entity" "email" "filter_0" fLikePat =
      QB.andWhere {} ("entity" ++ "." ++ "email" ++ " LIKE :" ++ "filter_0")
        [("filter_0", .one (some ("%" ++ "%a%" ++ "%")))] :=
  (C8_like_always_wraps {} "entity" "email" "filter_0" fLikePat "%a%"
    (by decide)).1 (by decide)

/-- Helper: with no schema metadata for the entity, every capability check
returns `false` (the metadata error is caught by `ReflectionService`). -/
theorem validateField_none (env : Env) (entity : String)
    (h : env entity = none) (field operation : String) :
    ReflectionService.validateField env entity field operation = false := by
  simp [ReflectionService.validateField,
    AdvancedMetadataService.getQueryCapabilities,
    AdvancedMetadataService.getEntityMetadata, h, Except.map]

/-- Helper: with no schema metadata for the entity, `resolvePath` either
reports invalid (non-empty path: the thrown error is caught) or carries no
final field (degenerate empty path). -/
theorem resolvePath_none (env : Env) (entity : String)
    (h : env entity = none) (path : String) :
    (ReflectionService.resolvePath env entity path).valid = false ∨
    (ReflectionService.resolvePath env entity path).finalField = none := by
  unfold ReflectionService.resolvePath AdvancedMetadataService.resolvePath
  cases hsp : splitDots path with
  | nil => simp [hsp]
  | cons p ps => simp [hsp, h]

/-- Helper: with no schema metadata, one filter iteration only warns — the
predicate list is untouched. -/
theorem applyOneFilter_wheres_none (env : Env) (entity : String)
    (h : env entity = none) (i : Nat) (f : FilterOptions) (qb : QB) :
    (applyOneFilter env entity i f qb).wheres = qb.wheres := by
  unfold applyOneFilter
  by_cases hdot : strHasChar f.field '.'
  · rcases resolvePath_none env entity h f.field with hv | hf
    · simp [hdot, hv, QB.warn]
    · simp [hdot, hf, QB.warn]
  · simp [hdot, validateField_none env entity h, QB.warn]

/-- Helper: with no schema metadata, the whole filter pass drops every
condition. -/
theorem applyFiltersAux_wheres_none (env : Env) (entity : String)
    (h : env entity = none) :
    ∀ (fs : List FilterOptions) (i : Nat) (qb : QB),
    (applyFiltersAux env entity i fs qb).wheres = qb.wheres := by
  intro fs
  induction fs with
  | nil => intro i qb; rfl
  | cons f rest ih =>
    intro i qb
    simp only [applyFiltersAux]
    rw [ih (i + 1) _]
    exact applyOneFilter_wheres_none env entity h i f qb

/-- Helper: with no schema metadata, every search field is skipped. -/
theorem searchStep_none (env : Env) (entity : String)
    (h : env entity = none) (cs : Bool) (field : String)
    (acc : QB × List String) :
    searchStep env entity cs field acc = acc := by
  obtain ⟨qb, conds⟩ := acc
  unfold searchStep
  by_cases hdot : strHasChar field '.'
  · rcases resolvePath_none env entity h field with hv | hf
    · simp [hdot, hv]
    · simp [hdot, hf]
  · simp [hdot, validateField_none env entity h]

/-- Helper: with no schema metadata, `applySearch` is the identity. -/
theorem applySearch_none (env : Env) (entity : String)
    (h : env entity = none) (s : SearchOptions) (qb : QB) :
    applySearch env entity s qb = qb := by
  unfold applySearch
  by_cases hq : s.query == "" || (s.fields.getD []).isEmpty
  · simp [hq]
  · have hfold : ∀ (l : List String) (acc : QB × List String),
        l.foldl (fun acc f =>
          searchStep env entity (s.caseSensitive.getD false) f acc) acc
          = acc := by
      intro l
      induction l with
      | nil => intro acc; rfl
      | cons x xs ih =>
        intro acc
        rw [List.foldl_cons, searchStep_none env entity h]
        exact ih acc
    simp [hq, hfold]

/-- C9 counterexample: for an entity unknown to the metadata provider,
metadata extraction does error, but compilation over that entity does NOT
abort: the plan is still built, the filter condition is silently dropped
(with only a logger warning), and the predicate list is empty. -/
theorem C9_no_abort_cx :
    AdvancedMetadataService.getEntityMetadata envEmpty "User" =
      .error ("Metadata extraction failed for User: " ++
        "No TypeORM metadata found for User") ∧
    buildAdvancedQuery envEmpty "User" { filters := some [fRole] } =
      { warnings := ["Field role is not filterable for entity User"] } :=
  ⟨rfl, by decide⟩

/-- C9 (amended): `getEntityMetadata` errors for an entity type unknown to
the provider, but `ReflectionService` catches that error, so compilation
proceeds instead of aborting: every filter condition and every search field
is treated as invalid and dropped, and the built plan has an empty
predicate list. -/
theorem C9_unknown_entity_no_abort :
    ∀ (env : Env) (entity : String), env entity = none →
      (∃ e, AdvancedMetadataService.getEntityMetadata env entity = .error e) ∧
      ∀ (fs : List FilterOptions) (s : Option SearchOptions),
        (buildAdvancedQuery env entity
          { filters := some fs, search := s }).wheres = [] := by
  intro env entity h
  constructor
  · refine ⟨"Metadata extraction failed for " ++ entity ++
      ": No TypeORM metadata found for " ++ entity, ?_⟩
    simp [AdvancedMetadataService.getEntityMetadata, h]
  · intro fs s
    have hfil : (if fs.length > 0 then
        applyFilters env entity fs {} else {}).wheres
        = ([] : List (String × Params)) := by
      by_cases hlen : fs.length > 0 <;>
        simp [hlen, applyFilters, applyFiltersAux_wheres_none env entity h]
    cases s with
    | none =>
      have heq : buildAdvancedQuery env entity
          { filters := some fs, search := none } =
          (if fs.length > 0 then applyFilters env entity fs {} else {}) := rfl
      rw [heq]
      exact hfil
    | some so =>
      have heq : buildAdvancedQuery env entity
          { filters := some fs, search := some so } =
          (if so.query != "" then
            applySearch env entity so
              (if fs.length > 0 then applyFilters env entity fs {} else {})
          else
            (if fs.length > 0 then applyFilters env entity fs {} else {})) :=
        rfl
      rw [heq]
      by_cases hq : so.query != ""
      · rw [if_pos hq, applySearch_none env entity h]
        exact hfil
      · rw [if_neg hq]
        exact hfil

/-- C9 witness: `C9_unknown_entity_no_abort` applied to the empty schema
environment with the `role eq user` filter. -/
theorem C9_unknown_entity_no_abort_witness :
    (∃ e, AdvancedMetadataService.getEntityMetadata envEmpty "User" =
      .error e) ∧
    (buildAdvancedQuery envEmpty "User"
      { filters := some [fRole], search := none }).wheres = [] :=
  ⟨(C9_unknown_entity_no_abort envEmpty "User" rfl).1,
   (C9_unknown_entity_no_abort envEmpty "User" rfl).2 [fRole] none⟩

/-- C10: in `applySearch`'s field loop, a dotted field is included in the
OR-group exactly when its path resolves with a final field — the terminal
column's membership in the searchable capability set is never consulted —
while a plain (non-dotted) field is included exactly when it passes the
`search` capability check. -/
theorem C10_dotted_search_skips_searchable :
    (∀ (env : Env) (entity : String) (cs : Bool) (field : String)
        (qb : QB) (conds : List String) (c : String),
      strHasChar field '.' = true →
      (ReflectionService.resolvePath env entity field).valid = true →
      (ReflectionService.resolvePath env entity field).finalField = some c →
      (searchStep env entity cs field (qb, conds)).2 =
        conds ++ [(ensureJoinsForPath qb
            (joinSep "." ((jsSplitDot field).dropLast)) false).2 ++ "." ++ c
          ++ " " ++ (if cs then "LIKE" else "ILIKE") ++ " :searchQuery"]) ∧
    (∀ (env : Env) (entity : String) (cs : Bool) (field : String)
        (qb : QB) (conds : List String),
      strHasChar field '.' = false →
      (searchStep env entity cs field (qb, conds)).2 =
        (if ReflectionService.validateField env entity field "search" then
          conds ++ ["entity." ++ field ++ " " ++
            (if cs then "LIKE" else "ILIKE") ++ " :searchQuery"]
        else conds)) := by
  constructor
  · intro env entity cs field qb conds c hdot hv hf
    simp [searchStep, hdot, hv, hf]
  · intro env entity cs field qb conds hdot
    by_cases hval : ReflectionService.validateField env entity field "search"
    · simp [searchStep, hdot, hval]
    · simp [searchStep, hdot, hval]

/-- The condition strings one search field contributes (empty when the
field is skipped); mirrors the branches of `searchStep`. -/
def searchCondOf (env : Env) (entity : String) (cs : Bool)
    (field : String) : List String :=
  if strHasChar field '.' then
    (let resolved := ReflectionService.resolvePath env entity field
     if !resolved.valid || resolved.finalField.isNone then []
     else [aliasForPath "entity" ""
         (splitDots (joinSep "." ((jsSplitDot field).dropLast))) ++ "." ++
       resolved.finalField.getD "" ++ " " ++
       (if cs then "LIKE" else "ILIKE") ++ " :searchQuery"])
  else if !(ReflectionService.validateField env entity field "search") then []
  else ["entity." ++ field ++ " " ++ (if cs then "LIKE" else "ILIKE") ++
    " :searchQuery"]

/-- The joins one search field contributes. -/
def searchJoinsOf (env : Env) (entity : String) (field : String) :
    List (String × String × Bool) :=
  if strHasChar field '.' then
    (let resolved := ReflectionService.resolvePath env entity field
     if !resolved.valid || resolved.finalField.isNone then []
     else joinsForPath false "entity" ""
       (splitDots (joinSep "." ((jsSplitDot field).dropLast))))
  else []

/-- One step of the search-field loop, characterized: it appends the
field's joins to the builder and the field's conditions to the
accumulator, nothing else. -/
theorem searchStep_spec (env : Env) (entity : String) (cs : Bool)
    (field : String) (qb : QB) (conds : List String) :
    searchStep env entity cs field (qb, conds) =
      ({ qb with joins := qb.joins ++ searchJoinsOf env entity field },
       conds ++ searchCondOf env entity cs field) := by
  unfold searchStep searchCondOf searchJoinsOf
  by_cases hdot : strHasChar field '.'
  · by_cases hskip : !(ReflectionService.resolvePath env entity field).valid
        || (ReflectionService.resolvePath env entity field).finalField.isNone
    · simp [hdot, hskip]
    · simp only [hdot, if_true, hskip, Bool.false_eq_true, if_false]
      rw [show ensureJoinsForPath qb
          (joinSep "." ((jsSplitDot field).dropLast)) false =
          ensureJoinsLoop false
            (splitDots (joinSep "." ((jsSplitDot field).dropLast))) qb
            "entity" "" from rfl]
      rw [ensureJoinsLoop_spec]
  · by_cases hval : ReflectionService.validateField env entity field "search"
    · simp [hdot, hval]
    · simp [hdot, hval]

/-- The conditions the whole search-field loop accumulates. -/
def searchCondsList (env : Env) (entity : String) (cs : Bool) :
    List String → List String
  | [] => []
  | f :: rest =>
    searchCondOf env entity cs f ++ searchCondsList env entity cs rest

/-- The search-field loop appends exactly `searchCondsList` to the
condition accumulator and never touches the predicate list. -/
theorem searchFold_spec (env : Env) (entity : String) (cs : Bool) :
    ∀ (fields : List String) (qb : QB) (conds : List String),
      ((fields.foldl (fun acc f => searchStep env entity cs f acc)
        (qb, conds)).2 = conds ++ searchCondsList env entity cs fields) ∧
      ((fields.foldl (fun acc f => searchStep env entity cs f acc)
        (qb, conds)).1.wheres = qb.wheres) := by
  intro fields
  induction fields with
  | nil => intro qb conds; exact ⟨by simp [searchCondsList], rfl⟩
  | cons f rest ih =>
    intro qb conds
    rw [List.foldl_cons, searchStep_spec]
    refine ⟨?_, ?_⟩
    · rw [(ih _ _).1]
      simp [searchCondsList, List.append_assoc]
    · rw [(ih _ _).2]

/-- Every condition `searchCondOf` emits in case-insensitive mode is an
`ILIKE` pattern match on an alias-qualified column. -/
theorem searchCondOf_shape (env : Env) (entity : String) (field : String) :
    ∀ c ∈ searchCondOf env entity false field,
      ∃ a col, c = a ++ "." ++ col ++ " ILIKE :searchQuery" := by
  intro c hc
  unfold searchCondOf at hc
  by_cases hdot : strHasChar field '.'
  · simp only [hdot, if_true] at hc
    by_cases hskip : !(ReflectionService.resolvePath env entity field).valid
        || (ReflectionService.resolvePath env entity field).finalField.isNone
    · simp [hskip] at hc
    · simp only [hskip, Bool.false_eq_true, if_false, List.mem_singleton]
        at hc
      refine ⟨aliasForPath "entity" ""
          (splitDots (joinSep "." ((jsSplitDot field).dropLast))),
        (ReflectionService.resolvePath env entity field).finalField.getD "",
        ?_⟩
      rw [hc]
      simp only [String.append_assoc]
      rfl
  · simp only [hdot, Bool.false_eq_true, if_false] at hc
    by_cases hval : ReflectionService.validateField env entity field "search"
    · simp only [hval, Bool.not_true, Bool.false_eq_true, if_false,
        List.mem_singleton] at hc
      refine ⟨"entity", field, ?_⟩
      rw [hc]
      simp only [String.append_assoc]
      rfl
    · simp [hval] at hc

/-- Every condition the whole loop emits in case-insensitive mode is an
`ILIKE` pattern match on an alias-qualified column. -/
theorem searchCondsList_shape (env : Env) (entity : String) :
    ∀ (fields : List String),
      ∀ c ∈ searchCondsList env entity false fields,
        ∃ a col, c = a ++ "." ++ col ++ " ILIKE :searchQuery" := by
  intro fields
  induction fields with
  | nil => intro c hc; simp [searchCondsList] at hc
  | cons f rest ih =>
    intro c hc
    simp only [searchCondsList, List.mem_append] at hc
    rcases hc with hc | hc
    · exact searchCondOf_shape env entity f c hc
    · exact ih c hc

/-- C7: for a search with a non-empty query, case-insensitive partial mode
and at least one accepted field, `applySearch` appends EXACTLY ONE where
group — the `OR`-join of one condition per accepted field, bound to the
single parameter `searchQuery` carrying `%query%` — after the predicates
already in the builder (so it is AND-ed with the filter conjunction), and
every condition in the group is an `ILIKE` match on a qualified column. -/
theorem C7_search_or_group :
    ∀ (env : Env) (entity : String) (s : SearchOptions) (qb : QB),
      s.query ≠ "" →
      s.caseSensitive.getD false = false →
      s.mode.getD "partial" = "partial" →
      searchCondsList env entity false (s.fields.getD []) ≠ [] →
      ((applySearch env entity s qb).wheres = qb.wheres ++
        [("(" ++ joinSep " OR "
            (searchCondsList env entity false (s.fields.getD [])) ++ ")",
          [("searchQuery", .one (some ("%" ++ s.query ++ "%")))])]) ∧
      (∀ c ∈ searchCondsList env entity false (s.fields.getD []),
        ∃ a col, c = a ++ "." ++ col ++ " ILIKE :searchQuery") := by
  intro env entity s qb hq hcs hmode hconds
  refine ⟨?_, searchCondsList_shape env entity _⟩
  have hqb : (s.query == "") = false := beq_eq_false_iff_ne.mpr hq
  have hfe : (s.fields.getD []).isEmpty = false := by
    cases hfs : s.fields.getD [] with
    | nil => exact absurd (by rw [hfs]; rfl) hconds
    | cons a l => rfl
  have hfold := searchFold_spec env entity false (s.fields.getD []) qb []
  unfold applySearch
  rw [hcs, hmode]
  simp only [hqb, hfe, Bool.or_self, Bool.false_eq_true, if_false]
  rw [if_pos]
  · simp only [QB.andWhere]
    rw [hfold.1, hfold.2]
    simp +decide
  · rw [hfold.1]
    simp only [List.nil_append]
    exact List.length_pos.mpr hconds

/-- C10 witness: the dotted field `profile.age` is included in the search
OR-group even though its terminal column `age` (an `int` column) is NOT in
the searchable capability set — the plain field `age` would be rejected. -/
theorem C10_dotted_search_skips_searchable_witness :
    ((searchStep envRoot "User" false "profile.age" ({}, [])).2 =
      [] ++ [(ensureJoinsForPath {}
          (joinSep "." ((jsSplitDot "profile.age").dropLast)) false).2
        ++ "." ++ "age" ++ " " ++ (if false then "LIKE" else "ILIKE")
        ++ " :searchQuery"]) ∧
    ReflectionService.validateField envRoot "User" "age" "search" = false :=
  ⟨C10_dotted_search_skips_searchable.1 envRoot "User" false "profile.age"
      {} [] "age" (by decide) (by decide) (by decide),
   by decide⟩

/-- C7 witness: spec scenario 2 — query `john` over `email` and
`displayName` compiles to one OR-group of two `ILIKE` conditions bound to
`%john%`. -/
theorem C7_search_or_group_witness :
    (applySearch envRoot "User"
      { query := "john", fields := some ["email", "displayName"] } {}).wheres
      = ([] : List (String × Params)) ++
        [("(" ++ joinSep " OR "
            (searchCondsList envRoot "User" false
              ((some ["email", "displayName"] : Option (List String)).getD []))
            ++ ")",
          [("searchQuery", .one (some ("%" ++ "john" ++ "%")))])] :=
  (C7_search_or_group envRoot "User"
    { query := "john", fields := some ["email", "displayName"] } {}
    (by decide) (by decide) (by decide) (by decide)).1

/-- `jsCeilDiv` computes the true rational ceiling for a positive divisor. -/
theorem jsCeilDiv_eq_ceil (a : Int) {b : Int} (hb : 0 < b) :
    jsCeilDiv a b = ⌈(a : ℚ) / (b : ℚ)⌉ := by
  have hbn : ((b.toNat : ℤ)) = b := Int.toNat_of_nonneg hb.le
  have hc : ((b.toNat : ℕ) : ℚ) = (b : ℚ) := by
    exact_mod_cast congrArg (fun z : ℤ => (z : ℚ)) hbn
  have hfl := Rat.floor_intCast_div_natCast (-a) b.toNat
  rw [hc, hbn] at hfl
  unfold jsCeilDiv
  rw [if_neg (by omega), Int.fdiv_eq_ediv _ hb.le]
  rw [show ⌈(a : ℚ) / (b : ℚ)⌉ = -⌊-((a : ℚ) / (b : ℚ))⌋ by
    rw [Int.floor_neg, neg_neg]]
  rw [show -((a : ℚ) / (b : ℚ)) = ((-a : ℤ) : ℚ) / (b : ℚ) by
    push_cast; ring]
  rw [hfl]

/-- A concrete storage backend over a unit row type: 25 matching rows, an
empty page. -/
def bkTest : StorageBackend Unit :=
  { getCount := fun _ => 25, getMany := fun _ => [] }

/-- Concrete options asking for page 2 with limit 10. -/
def optsPage2 : AdvancedQueryOptions :=
  { pagination := some { page := some 2, limit := some 10 } }

/-- C4: for any execution whose effective page is at least 1 and whose
effective limit lies in [1, maxLimit], the returned pagination block
satisfies `offset = (page-1)*limit`, `totalPages = ⌈total/limit⌉` (true
rational ceiling), `hasNext ↔ page < totalPages`, `hasPrev ↔ page > 1`,
where `total` is the backend's count of the builder WITHOUT pagination
(the count query) and the data rows come from the builder WITH
`skip`/`take` applied (the data query, issued after the count). -/
theorem C4_pagination_block {T : Type} (env : Env) (entity : String)
    (options : AdvancedQueryOptions) (backend : StorageBackend T)
    (page limit : Int)
    (hpdef : (options.pagination.bind (fun p => p.page)).getD 1 = page)
    (hldef : (options.pagination.bind (fun p => p.limit)).getD 10 = limit)
    (hp : 1 ≤ page) (hl1 : 1 ≤ limit) (hl2 : limit ≤ 100) :
    (executePaginatedQuery env entity options backend).pagination.page
      = page ∧
    (executePaginatedQuery env entity options backend).pagination.limit
      = limit ∧
    (executePaginatedQuery env entity options backend).pagination.total
      = backend.getCount (buildAdvancedQuery env entity options) ∧
    (executePaginatedQuery env entity options backend).pagination.offset
      = (page - 1) * limit ∧
    (executePaginatedQuery env entity options backend).pagination.totalPages
      = ⌈(((backend.getCount (buildAdvancedQuery env entity options) : ℤ))
          : ℚ) / (limit : ℚ)⌉ ∧
    ((executePaginatedQuery env entity options backend).pagination.hasNext
        = true ↔
      page <
        (executePaginatedQuery env entity options backend).pagination.totalPages) ∧
    ((executePaginatedQuery env entity options backend).pagination.hasPrev
        = true ↔ 1 < page) ∧
    (executePaginatedQuery env entity options backend).data =
      backend.getMany { buildAdvancedQuery env entity options with
        skipCount := some ((page - 1) * limit), takeCount := some limit } := by
  subst hpdef hldef
  refine ⟨rfl, rfl, rfl, rfl, ?_, ?_, ?_, rfl⟩
  · exact jsCeilDiv_eq_ceil _ (by omega)
  · simp [executePaginatedQuery, decide_eq_true_eq]
  · simp [executePaginatedQuery, decide_eq_true_eq]

/-- C4 witness: page 2, limit 10, 25 total rows — offset 10,
`totalPages = ⌈25/10⌉`, hasNext and hasPrev both true. -/
theorem C4_pagination_block_witness :
    (executePaginatedQuery envRoot "User" optsPage2 bkTest).pagination.page
      = 2 ∧
    (executePaginatedQuery envRoot "User" optsPage2 bkTest).pagination.limit
      = 10 ∧
    (executePaginatedQuery envRoot "User" optsPage2 bkTest).pagination.total
      = bkTest.getCount (buildAdvancedQuery envRoot "User" optsPage2) ∧
    (executePaginatedQuery envRoot "User" optsPage2 bkTest).pagination.offset
      = (2 - 1) * 10 ∧
    (executePaginatedQuery envRoot "User" optsPage2 bkTest).pagination.totalPages
      = ⌈(((bkTest.getCount (buildAdvancedQuery envRoot "User" optsPage2) : ℤ))
          : ℚ) / ((10 : ℤ) : ℚ)⌉ ∧
    ((executePaginatedQuery envRoot "User" optsPage2 bkTest).pagination.hasNext
        = true ↔
      2 < (executePaginatedQuery envRoot "User" optsPage2
        bkTest).pagination.totalPages) ∧
    ((executePaginatedQuery envRoot "User" optsPage2 bkTest).pagination.hasPrev
        = true ↔ (1 : ℤ) < 2) ∧
    (executePaginatedQuery envRoot "User" optsPage2 bkTest).data =
      bkTest.getMany { buildAdvancedQuery envRoot "User" optsPage2 with
        skipCount := some ((2 - 1) * 10), takeCount := some 10 } :=
  C4_pagination_block envRoot "User" optsPage2 bkTest 2 10
    rfl rfl (by decide) (by decide) (by decide)

/-- C5 counterexample: the mapper's `options.page || 1` and
`Math.min(options.limit || 20, 100)` only catch the falsy value 0 and the
upper bound: a NEGATIVE page and a NEGATIVE limit pass through unclamped,
so the executed query runs with page -1 and limit -5, contradicting the
claim that every incoming input ends with page ≥ 1 and limit in [1, 100]. -/
theorem C5_negative_passthrough_cx :
    (DynamicQueryBuilderService.executeDynamicQuery envRoot "User"
      { page := some (-1), limit := some (-5) } bkTest).pagination.page
      = -1 ∧
    (DynamicQueryBuilderService.executeDynamicQuery envRoot "User"
      { page := some (-1), limit := some (-5) } bkTest).pagination.limit
      = -5 ∧
    ¬((1 : Int) ≤ -1) ∧ ¬((1 : Int) ≤ -5) := by
  refine ⟨by decide, by decide, by decide, by decide⟩

/-- C5 (amended): for NONNEGATIVE inputs the dynamic mapper does clamp —
page 0 or missing becomes 1, limit 0 or missing becomes 20, and the limit
is capped above at 100 — so the effective page is ≥ 1 and the effective
limit lies in [1, 100]; negative inputs, however, pass through unclamped
(no lower bound is enforced anywhere). -/
theorem C5_nonneg_inputs_clamped :
    ∀ (options : DynamicQueryOptions),
      (∀ p, options.page = some p → 0 ≤ p) →
      (∀ l, options.limit = some l → 0 ≤ l) →
      ∃ (p l : Int),
        (DynamicQueryBuilderService.mapDynamicToAdvancedOptions options
          true).pagination = some { page := some p, limit := some l } ∧
        1 ≤ p ∧ 1 ≤ l ∧ l ≤ 100 := by
  intro options hp hl
  refine ⟨DynamicQueryBuilderService.jsOrInt options.page 1,
    min (DynamicQueryBuilderService.jsOrInt options.limit 20) 100,
    rfl, ?_, ?_, min_le_right _ _⟩
  · unfold DynamicQueryBuilderService.jsOrInt
    cases hpg : options.page with
    | none => norm_num
    | some x =>
      have hx0 := hp x hpg
      by_cases hx : x = 0
      · simp [hx]
      · simp only [hx, if_false]
        omega
  · have h1 : 1 ≤ DynamicQueryBuilderService.jsOrInt options.limit 20 := by
      unfold DynamicQueryBuilderService.jsOrInt
      cases hlg : options.limit with
      | none => norm_num
      | some x =>
        have hx0 := hl x hlg
        by_cases hx : x = 0
        · simp [hx]
        · simp only [hx, if_false]
          omega
    exact le_min h1 (by norm_num)

/-- C5 witness: input page 0 and limit 500 become page 1 and limit 100. -/
theorem C5_nonneg_inputs_clamped_witness :
    ∃ (p l : Int),
      (DynamicQueryBuilderService.mapDynamicToAdvancedOptions
        { page := some 0, limit := some 500 } true).pagination =
        some { page := some p, limit := some l } ∧
      1 ≤ p ∧ 1 ≤ l ∧ l ≤ 100 :=
  C5_nonneg_inputs_clamped { page := some 0, limit := some 500 }
    (by intro p h; cases h; decide) (by intro l h; cases h; decide)

end FreshShop
